import Mathlib

/-!
Verification of the memory-graph-workshop repository.

The first part embeds the frontend API client (frontend/lib/api.ts) and the
chat / memory-graph React components (ChatInterface, MemoryGraphView) as pure
Lean functions over explicit state.  The second part models the memory
repository, tool registry, preference merge engine and orchestrator retry
loop described in the specification; that backend code is not part of the
source tree available here, so those definitions are modelled from the
specification text and are marked as such in their doc comments.
-/

namespace Frontend

/-- Request body of the POST to the chat endpoint, mirroring the
`ChatMessage` interface of frontend/lib/api.ts. -/
structure ChatMessage where
  message : String
  memory_enabled : Bool
  thread_id : Option String
deriving Repr, DecidableEq

/-- A tool call as shown in the UI, mirroring the `ToolCall` interface of
frontend/lib/api.ts (arguments and output are kept abstract as strings). -/
structure ToolCallF where
  name : String
  arguments : String
  output : String
deriving Repr, DecidableEq

/-- A reasoning step of a chat response, mirroring the `ReasoningStep`
interface of frontend/lib/api.ts. -/
structure ReasoningStepF where
  step_number : Nat
  reasoning : Option String
  tool_calls : List ToolCallF
deriving Repr, DecidableEq

/-- Agent context snapshot, mirroring the `AgentContext` interface of
frontend/lib/api.ts. -/
structure AgentContextF where
  system_prompt : String
  memory_enabled : Bool
  preferences_applied : Option String
  model : String
  available_tools : List String
deriving Repr, DecidableEq

/-- Response of the chat endpoint, mirroring the `ChatResponse` interface of
frontend/lib/api.ts. -/
structure ChatResponse where
  response : String
  reasoning_steps : List ReasoningStepF
  agent_context : Option AgentContextF
  thread_id : Option String
deriving Repr, DecidableEq

/-- An HTTP POST request issued by the axios client: a path and a chat body. -/
structure PostRequest where
  path : String
  body : ChatMessage
deriving Repr, DecidableEq

/-- An HTTP response as seen by the axios client for the chat endpoint:
the parsed data and the HTTP status. -/
structure PostResponse where
  data : ChatResponse
  status : Nat
deriving Repr, DecidableEq

/-- The request built by `chatAPI.sendMessage` in frontend/lib/api.ts:
`api.post('/chat', { message, memory_enabled: memoryEnabled, thread_id: threadId })`.
The TypeScript default parameter values `memoryEnabled = false` and
`threadId = null` become Lean default arguments. -/
def sendMessageRequest (message : String) (memoryEnabled : Bool := false)
    (threadId : Option String := none) : PostRequest :=
  { path := "/chat"
    body := { message := message
              memory_enabled := memoryEnabled
              thread_id := threadId } }

/-- `chatAPI.sendMessage` of frontend/lib/api.ts: posts the request and
returns `response.data`.  The network is abstracted as the function
`post` from requests to responses. -/
def sendMessage (post : PostRequest → PostResponse) (message : String)
    (memoryEnabled : Bool := false) (threadId : Option String := none) :
    ChatResponse :=
  (post (sendMessageRequest message memoryEnabled threadId)).data

/-- An HTTP GET outcome as seen by the axios client: either a response with
a status (the promise resolved) or a thrown error. -/
inductive GetOutcome where
  | ok (status : Nat)
  | thrown (err : String)
deriving Repr, DecidableEq

/-- `chatAPI.healthCheck` of frontend/lib/api.ts: GET /health inside a
try/catch; returns `response.status === 200` on success and `false` on a
thrown error. -/
def healthCheck (outcome : GetOutcome) : Bool :=
  match outcome with
  | .ok status => status == 200
  | .thrown _ => false

end Frontend

namespace Frontend

/-- A message as rendered by the ChatInterface component in
frontend/app/page.tsx (the `Message` interface there). -/
structure UiMessage where
  id : String
  text : String
  sender : String
  reasoningSteps : Option (List ReasoningStepF)
deriving Repr, DecidableEq

/-- State of the ChatInterface component relevant to turn submission:
messages, the input box, the loading flag and the active thread id. -/
structure ChatState where
  messages : List UiMessage
  inputValue : String
  isLoading : Bool
  activeThreadId : Option String
deriving Repr, DecidableEq

/-- JavaScript `String.prototype.trim`: strip whitespace from both ends of
the string (modelled over the character list so it evaluates in the
kernel). -/
def jsTrim (s : String) : String :=
  ⟨((s.data.dropWhile Char.isWhitespace).reverse.dropWhile
      Char.isWhitespace).reverse⟩

/-- The fixed apology text appended by the ChatInterface catch handler. -/
def apologyText : String :=
  "Sorry, I encountered an error processing your request. Please try again."

/-- Outcome of the awaited `chatAPI.sendMessage` call: either the parsed
response or a thrown error. -/
inductive SendOutcome where
  | ok (resp : ChatResponse)
  | thrown (err : String)
deriving Repr, DecidableEq

/-- The `sendMessage` handler of the ChatInterface component
(frontend/app/page.tsx): guard on empty input or loading; append the user
message; on success append the agent message, adopt a newly created thread
id, and reset loading; on a thrown error append the fixed apology message
as an agent message and reset loading. -/
def uiSendMessage (st : ChatState) (now : Nat) (outcome : SendOutcome) :
    ChatState :=
  if jsTrim st.inputValue = "" ∨ st.isLoading then st
  else
    let userMsg : UiMessage :=
      { id := toString now, text := st.inputValue, sender := "user"
        reasoningSteps := none }
    match outcome with
    | .ok resp =>
        let agentMsg : UiMessage :=
          { id := toString (now + 1), text := resp.response, sender := "agent"
            reasoningSteps := some resp.reasoning_steps }
        { messages := st.messages ++ [userMsg, agentMsg]
          inputValue := ""
          isLoading := false
          activeThreadId :=
            match resp.thread_id, st.activeThreadId with
            | some t, none => some t
            | _, _ => st.activeThreadId }
    | .thrown _ =>
        let errMsg : UiMessage :=
          { id := toString (now + 1), text := apologyText, sender := "agent"
            reasoningSteps := none }
        { messages := st.messages ++ [userMsg, errMsg]
          inputValue := ""
          isLoading := false
          activeThreadId := st.activeThreadId }

end Frontend

/-- Claim C5: the turn-submission client operation posts to /chat a body
whose fields message, memory_enabled and thread_id equal the three
arguments, with memory_enabled defaulting to false and thread_id to null
when omitted, and returns the data of the response to that request. -/
theorem c5_sendMessage_request_shape (post : Frontend.PostRequest → Frontend.PostResponse)
    (message : String) (memoryEnabled : Bool) (threadId : Option String) :
    (Frontend.sendMessageRequest message memoryEnabled threadId).path = "/chat" ∧
    (Frontend.sendMessageRequest message memoryEnabled threadId).body.message = message ∧
    (Frontend.sendMessageRequest message memoryEnabled threadId).body.memory_enabled = memoryEnabled ∧
    (Frontend.sendMessageRequest message memoryEnabled threadId).body.thread_id = threadId ∧
    Frontend.sendMessageRequest message = Frontend.sendMessageRequest message false none ∧
    Frontend.sendMessage post message memoryEnabled threadId =
      (post (Frontend.sendMessageRequest message memoryEnabled threadId)).data := by
  refine ⟨rfl, rfl, rfl, rfl, rfl, rfl⟩

/-- Claim C10: healthCheck is total, returns true exactly when the GET
/health request resolves with HTTP status 200, and returns false on every
thrown error. -/
theorem c10_healthCheck_total (outcome : Frontend.GetOutcome) :
    (Frontend.healthCheck outcome = true ↔ outcome = .ok 200) ∧
    (∀ err, outcome = .thrown err → Frontend.healthCheck outcome = false) := by
  constructor
  · cases outcome with
    | ok status =>
        simp only [Frontend.healthCheck, beq_iff_eq]
        constructor
        · intro h; rw [h]
        · intro h; cases h; rfl
    | thrown err => simp [Frontend.healthCheck]
  · intro err h
    subst h
    rfl

/-- Claim C6: when the underlying service call of a submitted chat turn
throws, the ChatInterface handler still appends an agent-sender message
with the fixed apology text to the message list and resets the loading
flag to false. -/
theorem c6_error_degrades_gracefully (st : Frontend.ChatState) (now : Nat)
    (err : String) (hinput : Frontend.jsTrim st.inputValue ≠ "") (hload : st.isLoading = false) :
    (Frontend.uiSendMessage st now (.thrown err)).isLoading = false ∧
    (Frontend.uiSendMessage st now (.thrown err)).messages =
      st.messages ++
        [{ id := toString now, text := st.inputValue, sender := "user"
           reasoningSteps := none },
         { id := toString (now + 1), text := Frontend.apologyText, sender := "agent"
           reasoningSteps := none }] := by
  unfold Frontend.uiSendMessage
  rw [if_neg]
  · exact ⟨rfl, rfl⟩
  · intro h
    rcases h with h | h
    · exact hinput h
    · rw [hload] at h; exact Bool.false_ne_true h

/-- Witness for C6 at a concrete state: one pending user input, not
loading, a thrown error. -/
theorem c6_error_degrades_gracefully_witness :
    (Frontend.uiSendMessage
        { messages := [], inputValue := "hello", isLoading := false
          activeThreadId := none } 7 (.thrown "network down")).isLoading = false ∧
    (Frontend.uiSendMessage
        { messages := [], inputValue := "hello", isLoading := false
          activeThreadId := none } 7 (.thrown "network down")).messages =
      [] ++
        [{ id := toString 7, text := "hello", sender := "user"
           reasoningSteps := none },
         { id := toString 8, text := Frontend.apologyText, sender := "agent"
           reasoningSteps := none }] :=
  c6_error_degrades_gracefully
    { messages := [], inputValue := "hello", isLoading := false
      activeThreadId := none } 7 "network down" (by decide) rfl

namespace Frontend

/-- A graph node of the exported memory graph, mirroring the `GraphNode`
interface of frontend/lib/api.ts (properties are not consulted by the
filtering logic and are omitted). -/
structure GraphNode where
  id : String
  labels : List String
deriving Repr, DecidableEq

/-- A graph relationship of the exported memory graph, mirroring the
`GraphRelationship` interface of frontend/lib/api.ts.  The endpoint fields
are called `from` and `to` in the source; `from` is a reserved word in
Lean, so they are `fromId` and `toId` here. -/
structure GraphRelationship where
  id : String
  fromId : String
  toId : String
  type : String
deriving Repr, DecidableEq

/-- The exported memory graph, mirroring the `MemoryGraph` interface of
frontend/lib/api.ts. -/
structure MemoryGraph where
  nodes : List GraphNode
  relationships : List GraphRelationship
deriving Repr, DecidableEq

/-- The memory-type classification of MemoryGraphView.tsx
(`type MemoryType = 'short-term' | 'user-profile' | 'procedural'`). -/
inductive MemoryType where
  | shortTerm
  | userProfile
  | procedural
deriving Repr, DecidableEq

/-- The three memory-type filter toggles of MemoryGraphView.tsx. -/
structure MemoryTypeFilters where
  shortTerm : Bool
  userProfile : Bool
  procedural : Bool
deriving Repr, DecidableEq

/-- Whether a memory type passes the current filters
(`memoryFilters[memoryType]` in MemoryGraphView.tsx). -/
def MemoryTypeFilters.enabled (f : MemoryTypeFilters) : MemoryType → Bool
  | .shortTerm => f.shortTerm
  | .userProfile => f.userProfile
  | .procedural => f.procedural

/-- `getNodeLabel` of MemoryGraphView.tsx: the first label of the priority
chain present on the node, else `labels[0] || 'Unknown'` (an absent or
empty first label yields `Unknown`). -/
def getNodeLabel (node : GraphNode) : String :=
  if node.labels.contains "Thread" then "Thread"
  else if node.labels.contains "Message" then "Message"
  else if node.labels.contains "ReasoningStep" then "ReasoningStep"
  else if node.labels.contains "ToolCall" then "ToolCall"
  else if node.labels.contains "Tool" then "Tool"
  else if node.labels.contains "UserPreference" then "UserPreference"
  else if node.labels.contains "PreferenceCategory" then "PreferenceCategory"
  else if node.labels.contains "Location" then "Location"
  else if node.labels.contains "Person" then "Person"
  else if node.labels.contains "Organization" then "Organization"
  else if node.labels.contains "Topic" then "Topic"
  else match node.labels with
    | [] => "Unknown"
    | l :: _ => if l = "" then "Unknown" else l

/-- `getNodeMemoryType` of MemoryGraphView.tsx: classify a node by its
primary label, defaulting to short-term. -/
def getNodeMemoryType (node : GraphNode) : MemoryType :=
  let t := getNodeLabel node
  if t = "Thread" ∨ t = "Message" then .shortTerm
  else if t = "UserPreference" ∨ t = "PreferenceCategory" ∨ t = "Location" ∨
      t = "Person" ∨ t = "Organization" ∨ t = "Topic" then .userProfile
  else if t = "ReasoningStep" ∨ t = "ToolCall" ∨ t = "Tool" then .procedural
  else .shortTerm

/-- `filteredNodes` of MemoryGraphView.tsx: the nodes of the loaded graph
whose memory type passes the filters. -/
def filteredNodes (g : MemoryGraph) (f : MemoryTypeFilters) : List GraphNode :=
  g.nodes.filter (fun n => f.enabled (getNodeMemoryType n))

/-- `filteredRelationships` of MemoryGraphView.tsx: keep a relationship
only when both its endpoints are among the ids of the filtered nodes. -/
def filteredRelationships (g : MemoryGraph) (f : MemoryTypeFilters) :
    List GraphRelationship :=
  let visibleNodeIds := (filteredNodes g f).map (fun n => n.id)
  g.relationships.filter
    (fun r => visibleNodeIds.contains r.fromId && visibleNodeIds.contains r.toId)

end Frontend

/-- Claim C8: for every loaded graph and filter setting, the relationships
handed to the visualization are exactly the relationships of the graph
whose from-node id and to-node id both belong to the filtered node set; in
particular no rendered relationship has an endpoint outside the rendered
nodes. -/
theorem c8_filtered_relationships_closed (g : Frontend.MemoryGraph)
    (f : Frontend.MemoryTypeFilters) (r : Frontend.GraphRelationship) :
    r ∈ Frontend.filteredRelationships g f ↔
      r ∈ g.relationships ∧
      (∃ n ∈ Frontend.filteredNodes g f, n.id = r.fromId) ∧
      (∃ n ∈ Frontend.filteredNodes g f, n.id = r.toId) := by
  simp [Frontend.filteredRelationships, List.mem_filter, List.elem_iff,
    List.mem_map]

namespace Frontend

/-- A node as handed to the NVL wrapper by MemoryGraphView.tsx; only the
fields read back by the click handler are kept (`data` holds the original
graph node, and may be absent). -/
structure NvlNodeM where
  id : String
  data : Option GraphNode
deriving Repr, DecidableEq

/-- The events that touch the selection state of MemoryGraphView.tsx:
the start and the two outcomes of `loadGraphData`, the NVL node and
relationship click callbacks, and the close button of the property
panel. -/
inductive ViewEvent where
  | loadStart
  | loadSuccess (g : MemoryGraph)
  | loadFailure (msg : String)
  | nodeClick (n : NvlNodeM)
  | relClick (relId : String)
  | closePanel
deriving Repr, DecidableEq

/-- The React state of MemoryGraphView.tsx relevant to selection. -/
structure ViewState where
  isLoading : Bool
  graphData : Option MemoryGraph
  error : Option String
  selectedNode : Option GraphNode
  selectedRelationship : Option GraphRelationship
deriving Repr, DecidableEq

/-- The `useState` initial values of MemoryGraphView.tsx: nothing loaded,
nothing selected. -/
def initialViewState : ViewState :=
  { isLoading := false, graphData := none, error := none
    selectedNode := none, selectedRelationship := none }

/-- The error text set by `loadGraphData` when the graph has no nodes. -/
def noDataError : String :=
  "No memory data available. Enable memory and chat to build your memory graph."

/-- One step of the MemoryGraphView state: `loadGraphData` clears both
selections at its start and stores the data (or the error) at its end;
`onNodeClick` selects the clicked node and clears the relationship
selection when the node carries its original data; `onRelationshipClick`
looks the relationship up in the loaded graph and, when found, selects it
and clears the node selection; the property-panel close button clears
both. -/
def viewStep (st : ViewState) (e : ViewEvent) : ViewState :=
  match e with
  | .loadStart =>
      { st with isLoading := true, error := none
                selectedNode := none, selectedRelationship := none }
  | .loadSuccess g =>
      { st with graphData := some g
                error := if g.nodes.isEmpty then some noDataError else st.error
                isLoading := false }
  | .loadFailure msg =>
      { st with error := some msg, isLoading := false }
  | .nodeClick n =>
      match n.data with
      | some d => { st with selectedNode := some d, selectedRelationship := none }
      | none => st
  | .relClick relId =>
      match st.graphData with
      | none => st
      | some g =>
          match g.relationships.find? (fun r => r.id == relId) with
          | some r => { st with selectedRelationship := some r, selectedNode := none }
          | none => st
  | .closePanel =>
      { st with selectedNode := none, selectedRelationship := none }

/-- Run the view from its initial state through a list of events. -/
def runView (evs : List ViewEvent) : ViewState :=
  evs.foldl viewStep initialViewState

/-- At most one of the two selections is set. -/
def selExclusive (st : ViewState) : Prop :=
  st.selectedNode = none ∨ st.selectedRelationship = none

/-- Every single step of MemoryGraphView preserves the mutual exclusion of
the two selections. -/
theorem viewStep_selExclusive (st : ViewState) (e : ViewEvent)
    (h : selExclusive st) : selExclusive (viewStep st e) := by
  cases e with
  | loadStart => simp [viewStep, selExclusive]
  | loadSuccess g => simpa [viewStep, selExclusive] using h
  | loadFailure msg => simpa [viewStep, selExclusive] using h
  | nodeClick n =>
      cases hd : n.data with
      | some d => simp [viewStep, hd, selExclusive]
      | none => simpa [viewStep, hd, selExclusive] using h
  | relClick relId =>
      cases hg : st.graphData with
      | none => simpa [viewStep, hg, selExclusive] using h
      | some g =>
          cases hf : g.relationships.find? (fun r => r.id == relId) with
          | some r => simp [viewStep, hg, hf, selExclusive]
          | none => simpa [viewStep, hg, hf, selExclusive] using h

  | closePanel => simp [viewStep, selExclusive]

/-- The mutual exclusion holds along any run from any state satisfying it. -/
theorem foldl_viewStep_selExclusive (evs : List ViewEvent) :
    ∀ st : ViewState, selExclusive st → selExclusive (evs.foldl viewStep st) := by
  induction evs with
  | nil => intro st h; simpa using h
  | cons e rest ih =>
      intro st h
      exact ih (viewStep st e) (viewStep_selExclusive st e h)

end Frontend

/-- Claim C9: in the memory-graph view, at most one of selectedNode and
selectedRelationship is non-null in every reachable state; both start
null, starting a graph load clears both, a node click (carrying its data)
sets the node selection and clears the relationship selection, a
relationship click that finds its relationship in the loaded graph sets
the relationship selection and clears the node selection, and closing the
property panel clears both. -/
theorem c9_selection_mutual_exclusion :
    (Frontend.initialViewState.selectedNode = none ∧
      Frontend.initialViewState.selectedRelationship = none) ∧
    (∀ st : Frontend.ViewState,
      (Frontend.viewStep st .loadStart).selectedNode = none ∧
      (Frontend.viewStep st .loadStart).selectedRelationship = none) ∧
    (∀ (st : Frontend.ViewState) (n : Frontend.NvlNodeM)
        (d : Frontend.GraphNode), n.data = some d →
      (Frontend.viewStep st (.nodeClick n)).selectedNode = some d ∧
      (Frontend.viewStep st (.nodeClick n)).selectedRelationship = none) ∧
    (∀ (st : Frontend.ViewState) (relId : String) (g : Frontend.MemoryGraph)
        (r : Frontend.GraphRelationship), st.graphData = some g →
      g.relationships.find? (fun x => x.id == relId) = some r →
      (Frontend.viewStep st (.relClick relId)).selectedRelationship = some r ∧
      (Frontend.viewStep st (.relClick relId)).selectedNode = none) ∧
    (∀ st : Frontend.ViewState,
      (Frontend.viewStep st .closePanel).selectedNode = none ∧
      (Frontend.viewStep st .closePanel).selectedRelationship = none) ∧
    (∀ evs : List Frontend.ViewEvent,
      Frontend.selExclusive (Frontend.runView evs)) := by
  refine ⟨⟨rfl, rfl⟩, ?_, ?_, ?_, ?_, ?_⟩
  · intro st; exact ⟨rfl, rfl⟩
  · intro st n d hd
    simp [Frontend.viewStep, hd]
  · intro st relId g r hg hf
    simp [Frontend.viewStep, hg, hf]
  · intro st; exact ⟨rfl, rfl⟩
  · intro evs
    exact Frontend.foldl_viewStep_selExclusive evs Frontend.initialViewState
      (Or.inl rfl)

/-- Witness for C9: the node-click and relationship-click transitions at a
concrete state whose graph holds one relationship. -/
theorem c9_selection_mutual_exclusion_witness :
    (Frontend.viewStep
        { isLoading := false
          graphData := some { nodes := [], relationships := [] }
          error := none, selectedNode := none
          selectedRelationship :=
            some { id := "r1", fromId := "a", toId := "b", type := "NEXT_MESSAGE" } }
        (.nodeClick { id := "a", data := some { id := "a", labels := ["Message"] } })
      ).selectedNode = some { id := "a", labels := ["Message"] } ∧
    (Frontend.viewStep
        { isLoading := false
          graphData := some { nodes := [], relationships := [] }
          error := none, selectedNode := none
          selectedRelationship :=
            some { id := "r1", fromId := "a", toId := "b", type := "NEXT_MESSAGE" } }
        (.nodeClick { id := "a", data := some { id := "a", labels := ["Message"] } })
      ).selectedRelationship = none :=
  c9_selection_mutual_exclusion.2.2.1
    { isLoading := false
      graphData := some { nodes := [], relationships := [] }
      error := none, selectedNode := none
      selectedRelationship :=
        some { id := "r1", fromId := "a", toId := "b", type := "NEXT_MESSAGE" } }
    { id := "a", data := some { id := "a", labels := ["Message"] } }
    { id := "a", labels := ["Message"] } rfl

/-- Witness for C5: the request shape at a concrete message, flag and
thread id, under a constant network function. -/
theorem c5_sendMessage_request_shape_witness :
    (Frontend.sendMessageRequest "hi" true (some "t1")).path = "/chat" ∧
    (Frontend.sendMessageRequest "hi" true (some "t1")).body.message = "hi" ∧
    (Frontend.sendMessageRequest "hi" true (some "t1")).body.memory_enabled = true ∧
    (Frontend.sendMessageRequest "hi" true (some "t1")).body.thread_id = some "t1" ∧
    Frontend.sendMessageRequest "hi" = Frontend.sendMessageRequest "hi" false none ∧
    Frontend.sendMessage
        (fun _ => { data := { response := "ok", reasoning_steps := []
                              agent_context := none, thread_id := some "t1" }
                    status := 200 }) "hi" true (some "t1") =
      (((fun _ => { data := { response := "ok", reasoning_steps := []
                              agent_context := none, thread_id := some "t1" }
                    status := 200 }) :
          Frontend.PostRequest → Frontend.PostResponse)
        (Frontend.sendMessageRequest "hi" true (some "t1"))).data :=
  c5_sendMessage_request_shape
    (fun _ => { data := { response := "ok", reasoning_steps := []
                          agent_context := none, thread_id := some "t1" }
                status := 200 }) "hi" true (some "t1")

/-- Witness for C10: a resolved GET with status 200 yields true. -/
theorem c10_healthCheck_total_witness :
    (Frontend.healthCheck (.ok 200) = true ↔
      (Frontend.GetOutcome.ok 200 : Frontend.GetOutcome) = .ok 200) ∧
    (∀ err, (Frontend.GetOutcome.ok 200 : Frontend.GetOutcome) = .thrown err →
      Frontend.healthCheck (.ok 200) = false) :=
  c10_healthCheck_total (.ok 200)

/-- Witness for C8: a one-relationship graph whose endpoints are a Thread
node and a filtered-out ReasoningStep node: the relationship is dropped. -/
theorem c8_filtered_relationships_closed_witness :
    ({ id := "r1", fromId := "n1", toId := "n2", type := "HAS_REASONING_STEP" } ∈
        Frontend.filteredRelationships
          { nodes := [{ id := "n1", labels := ["Thread"] },
                      { id := "n2", labels := ["ReasoningStep"] }]
            relationships :=
              [{ id := "r1", fromId := "n1", toId := "n2"
                 type := "HAS_REASONING_STEP" }] }
          { shortTerm := true, userProfile := true, procedural := false }) ↔
      ({ id := "r1", fromId := "n1", toId := "n2", type := "HAS_REASONING_STEP" } ∈
          [({ id := "r1", fromId := "n1", toId := "n2"
              type := "HAS_REASONING_STEP" } : Frontend.GraphRelationship)] ∧
        (∃ n ∈ Frontend.filteredNodes
            { nodes := [{ id := "n1", labels := ["Thread"] },
                        { id := "n2", labels := ["ReasoningStep"] }]
              relationships :=
                [{ id := "r1", fromId := "n1", toId := "n2"
                   type := "HAS_REASONING_STEP" }] }
            { shortTerm := true, userProfile := true, procedural := false },
          n.id = "n1") ∧
        (∃ n ∈ Frontend.filteredNodes
            { nodes := [{ id := "n1", labels := ["Thread"] },
                        { id := "n2", labels := ["ReasoningStep"] }]
              relationships :=
                [{ id := "r1", fromId := "n1", toId := "n2"
                   type := "HAS_REASONING_STEP" }] }
            { shortTerm := true, userProfile := true, procedural := false },
          n.id = "n2")) :=
  c8_filtered_relationships_closed
    { nodes := [{ id := "n1", labels := ["Thread"] },
                { id := "n2", labels := ["ReasoningStep"] }]
      relationships :=
        [{ id := "r1", fromId := "n1", toId := "n2"
           type := "HAS_REASONING_STEP" }] }
    { shortTerm := true, userProfile := true, procedural := false }
    { id := "r1", fromId := "n1", toId := "n2", type := "HAS_REASONING_STEP" }

namespace Repo

/-- A persisted Message, reduced to the fields the ordering claims consult:
its identity and its timestamp (spec section 3; the Neo4j schema in the
README stores both).  Ids are modelled as naturals. -/
structure Message where
  id : Nat
  timestamp : Nat
deriving Repr, DecidableEq

/-- The per-thread storage state of the message chain: the FIRST_MESSAGE
pointer, the NEXT_MESSAGE edges, and the cached tail pointer the
repository keeps to append in O(1) (spec section 4.1). -/
structure ChainState where
  first : Option Nat
  next : List (Nat × Nat)
  tail : Option Nat
deriving Repr, DecidableEq

/-- A freshly created thread: no messages, no pointers (spec section 4.1,
`create_thread`). -/
def emptyChain : ChainState :=
  { first := none, next := [], tail := none }

/-- Modelled from the spec: `append_message` of the Memory Repository
(section 4.1, backend/app/sessions_client.py not present under src).  If
the thread has no messages the new message becomes FIRST_MESSAGE,
otherwise it is linked after the current last message via NEXT_MESSAGE;
the tail pointer is updated either way. -/
def appendId (s : ChainState) (m : Nat) : ChainState :=
  match s.tail with
  | none => { first := some m, next := s.next, tail := some m }
  | some t => { first := s.first, next := s.next ++ [(t, m)], tail := some m }

/-- `append_message` on a full Message record: only the identity enters the
chain structure; the timestamp is never consulted. -/
def appendMessage (s : ChainState) (m : Message) : ChainState :=
  appendId s m.id

/-- The chain obtained by appending the given messages, in creation order,
to a fresh thread. -/
def buildChain (msgs : List Message) : ChainState :=
  msgs.foldl appendMessage emptyChain

/-- The chain obtained from bare message ids. -/
def buildChainIds (ids : List Nat) : ChainState :=
  ids.foldl appendId emptyChain

/-- Follow one NEXT_MESSAGE edge: first matching edge of the edge list. -/
def assocNext : List (Nat × Nat) → Nat → Option Nat
  | [], _ => none
  | p :: rest, k => if k = p.1 then some p.2 else assocNext rest k

/-- Walk FIRST_MESSAGE then repeated NEXT_MESSAGE, bounded by fuel. -/
def walkChain (start : Option Nat) (next : Nat → Option Nat) : Nat → List Nat
  | 0 => []
  | fuel + 1 =>
      match start with
      | none => []
      | some m => m :: walkChain (next m) next fuel

/-- Modelled from the spec: the ordered-read of `get_thread` (section 4.1)
reconstructs message order strictly by walking FIRST_MESSAGE then
NEXT_MESSAGE; no timestamp is read. -/
def getThreadOrder (s : ChainState) (fuel : Nat) : List Nat :=
  walkChain s.first (assocNext s.next) fuel

/-- The NEXT_MESSAGE edges of a creation-ordered id list: each id points to
its successor. -/
def chainEdges : List Nat → List (Nat × Nat)
  | [] => []
  | [_] => []
  | a :: b :: rest => (a, b) :: chainEdges (b :: rest)

theorem buildChain_eq_ids (msgs : List Message) :
    buildChain msgs = buildChainIds (msgs.map Message.id) := by
  simp only [buildChain, buildChainIds, List.foldl_map]
  rfl

theorem buildChainIds_concat (ids : List Nat) (m : Nat) :
    buildChainIds (ids ++ [m]) = appendId (buildChainIds ids) m := by
  simp [buildChainIds, List.foldl_append]

theorem chainEdges_concat (ids : List Nat) (t m : Nat)
    (h : ids.getLast? = some t) :
    chainEdges (ids ++ [m]) = chainEdges ids ++ [(t, m)] := by
  induction ids with
  | nil => simp at h
  | cons a rest ih =>
      cases rest with
      | nil =>
          simp at h
          subst h
          simp [chainEdges]
      | cons b rest' =>
          rw [List.getLast?_cons_cons] at h
          simpa [chainEdges] using ih h

theorem buildChainIds_eq (ids : List Nat) :
    buildChainIds ids =
      { first := ids.head?, next := chainEdges ids, tail := ids.getLast? } := by
  induction ids using List.reverseRecOn with
  | nil => rfl
  | append_singleton ids m ih =>
      rw [buildChainIds_concat, ih]
      cases hids : ids with
      | nil => simp [appendId, chainEdges]
      | cons a rest =>
          cases ht : (a :: rest).getLast? with
          | none => simp at ht
          | some t =>
              subst hids
              simp only [ht, appendId]
              rw [chainEdges_concat _ t m ht, List.getLast?_concat]
              simp

theorem assocNext_append_of_keys_ne (pre l : List (Nat × Nat)) (k : Nat)
    (h : ∀ p ∈ pre, p.1 ≠ k) : assocNext (pre ++ l) k = assocNext l k := by
  induction pre with
  | nil => rfl
  | cons p rest ih =>
      have hp : k ≠ p.1 := fun hk => h p (by simp) hk.symm
      simp only [List.cons_append, assocNext, if_neg hp]
      exact ih fun q hq => h q (by simp [hq])

theorem walk_chainEdges (ids : List Nat) : ∀ pre : List (Nat × Nat),
    ids.Nodup → (∀ p ∈ pre, p.1 ∉ ids) →
    walkChain ids.head? (assocNext (pre ++ chainEdges ids)) ids.length = ids := by
  induction ids with
  | nil => intro pre _ _; rfl
  | cons a rest ih =>
      intro pre hnd hpre
      cases rest with
      | nil => simp [walkChain]
      | cons b rest' =>
          have hedges : chainEdges (a :: b :: rest') =
              (a, b) :: chainEdges (b :: rest') := rfl
          have hfa : assocNext (pre ++ chainEdges (a :: b :: rest')) a = some b := by
            rw [hedges,
              assocNext_append_of_keys_ne pre _ a
                (fun p hp => fun he => hpre p hp (he ▸ List.mem_cons_self a _))]
            simp [assocNext]
          have hregroup : pre ++ chainEdges (a :: b :: rest') =
              (pre ++ [(a, b)]) ++ chainEdges (b :: rest') := by
            rw [hedges]; simp
          have hnd' : (b :: rest').Nodup := hnd.of_cons
          have hanotin : a ∉ b :: rest' := (List.nodup_cons.mp hnd).1
          have hpre' : ∀ p ∈ pre ++ [(a, b)], p.1 ∉ b :: rest' := by
            intro p hp
            rcases List.mem_append.mp hp with hp | hp
            · exact fun hmem => hpre p hp (List.mem_cons_of_mem a hmem)
            · have : p = (a, b) := by simpa using hp
              subst this
              exact hanotin
          calc walkChain (a :: b :: rest').head?
                  (assocNext (pre ++ chainEdges (a :: b :: rest')))
                  (a :: b :: rest').length
              = a :: walkChain (some b)
                  (assocNext (pre ++ chainEdges (a :: b :: rest')))
                  (b :: rest').length := by
                simp only [List.head?_cons, List.length_cons, walkChain, hfa]
            _ = a :: walkChain (b :: rest').head?
                  (assocNext ((pre ++ [(a, b)]) ++ chainEdges (b :: rest')))
                  (b :: rest').length := by rw [hregroup]; rfl
            _ = a :: (b :: rest') := by rw [ih (pre ++ [(a, b)]) hnd' hpre']

theorem assocNext_chainEdges_getLast (ids : List Nat) :
    ∀ t : Nat, ids.Nodup → ids.getLast? = some t →
    assocNext (chainEdges ids) t = none := by
  induction ids with
  | nil => intro t _ h; simp at h
  | cons a rest ih =>
      intro t hnd h
      cases rest with
      | nil => rfl
      | cons b rest' =>
          rw [List.getLast?_cons_cons] at h
          have htmem : t ∈ b :: rest' := List.mem_of_mem_getLast? h
          have hta : t ≠ a := by
            intro he
            exact (List.nodup_cons.mp hnd).1 (he ▸ htmem)
          show assocNext ((a, b) :: chainEdges (b :: rest')) t = none
          simp only [assocNext, if_neg hta]
          exact ih t hnd.of_cons h

end Repo

/-- Claim C1: for a thread built by appending messages in creation order,
walking FIRST_MESSAGE then repeated NEXT_MESSAGE visits exactly the
created messages, in creation order (with the tail having no successor,
so the chain has no cycles), and the whole chain — hence the
reconstructed order — is a function of the message identities alone,
never of any timestamp field. -/
theorem c1_message_chain_order (msgs : List Repo.Message)
    (hnd : (msgs.map Repo.Message.id).Nodup) :
    Repo.getThreadOrder (Repo.buildChain msgs) msgs.length =
      msgs.map Repo.Message.id ∧
    (∀ t, (Repo.buildChain msgs).tail = some t →
      Repo.assocNext (Repo.buildChain msgs).next t = none) ∧
    ∀ msgs' : List Repo.Message,
      msgs'.map Repo.Message.id = msgs.map Repo.Message.id →
      Repo.buildChain msgs' = Repo.buildChain msgs := by
  refine ⟨?_, ?_, ?_⟩
  · rw [Repo.buildChain_eq_ids, Repo.buildChainIds_eq]
    have h := Repo.walk_chainEdges (msgs.map Repo.Message.id) [] hnd (by simp)
    simpa [Repo.getThreadOrder, List.length_map] using h
  · intro t ht
    rw [Repo.buildChain_eq_ids, Repo.buildChainIds_eq] at ht ⊢
    exact Repo.assocNext_chainEdges_getLast _ t hnd ht
  · intro msgs' he
    rw [Repo.buildChain_eq_ids, Repo.buildChain_eq_ids, he]

/-- Witness for C1: three messages appended in creation order carrying
deliberately non-monotonic timestamps are walked back as 1, 2, 3. -/
theorem c1_message_chain_order_witness :
    Repo.getThreadOrder
        (Repo.buildChain
          [{ id := 1, timestamp := 100 }, { id := 2, timestamp := 50 },
           { id := 3, timestamp := 75 }]) 3 = [1, 2, 3] := by
  have h :=
    (c1_message_chain_order
      [{ id := 1, timestamp := 100 }, { id := 2, timestamp := 50 },
       { id := 3, timestamp := 75 }] (by decide)).1
  simpa using h

namespace Repo

/-- A canonical Tool node (spec section 3 and the README schema): unique
name, description, creation time, last-use time and usage count. -/
structure Tool where
  name : String
  description : String
  created_at : Nat
  last_used_at : Nat
  usage_count : Nat
deriving Repr, DecidableEq

/-- Update-in-place of an existing Tool on a new reference: increment
usage_count and refresh last_used_at. -/
def bumpTool (now : Nat) (t : Tool) : Tool :=
  { t with usage_count := t.usage_count + 1, last_used_at := now }

/-- Modelled from the spec: the Tool upsert of `append_reasoning_steps`
(section 4.1, backend/app/procedural_memory_client.py not present under
src).  If a Tool with the name exists, it is updated in place (usage_count
incremented, last_used_at refreshed); otherwise a Tool is created with
usage_count 1. -/
def upsertTool (reg : List Tool) (n : String) (now : Nat) : List Tool :=
  if reg.any (fun t => t.name == n) then
    reg.map (fun t => if t.name == n then bumpTool now t else t)
  else
    reg ++ [{ name := n, description := "", created_at := now
              last_used_at := now, usage_count := 1 }]

/-- Run a sequence of ToolCall references (tool name, time) against an
initially empty registry. -/
def processToolEvents (evs : List (String × Nat)) : List Tool :=
  evs.foldl (fun reg e => upsertTool reg e.1 e.2) []

/-- The Tool nodes of a registry carrying a given name. -/
def toolsNamed (n : String) (reg : List Tool) : List Tool :=
  reg.filter (fun t => t.name == n)

/-- The number of ToolCall references to a given name. -/
def countName (n : String) (evs : List (String × Nat)) : Nat :=
  (evs.filter (fun e => e.1 == n)).length

/-- Time of the first reference to a name, if any. -/
def firstUse (n : String) : List (String × Nat) → Option Nat
  | [] => none
  | e :: rest => if e.1 == n then some e.2 else firstUse n rest

/-- Time of the last reference to a name, if any. -/
def lastUse (n : String) (evs : List (String × Nat)) : Option Nat :=
  firstUse n evs.reverse

theorem any_name_iff (reg : List Tool) (n : String) :
    reg.any (fun t => t.name == n) = true ↔ toolsNamed n reg ≠ [] := by
  rw [List.any_eq_true]
  constructor
  · rintro ⟨t, ht, hp⟩ hnil
    have hmem : t ∈ toolsNamed n reg := List.mem_filter.mpr ⟨ht, hp⟩
    rw [hnil] at hmem
    exact List.not_mem_nil t hmem
  · intro hne
    rcases List.exists_mem_of_ne_nil _ hne with ⟨t, ht⟩
    have h := List.mem_filter.mp ht
    exact ⟨t, h.1, h.2⟩

theorem toolsNamed_append (n : String) (reg : List Tool) (t : Tool) :
    toolsNamed n (reg ++ [t]) =
      toolsNamed n reg ++ if t.name == n then [t] else [] := by
  simp only [toolsNamed, List.filter_append]
  congr 1
  by_cases h : t.name == n <;> simp [List.filter, h]

theorem toolsNamed_map_pres (g : Tool → Tool)
    (hg : ∀ t, (g t).name = t.name) (n : String) (reg : List Tool) :
    toolsNamed n (reg.map g) = (toolsNamed n reg).map g := by
  induction reg with
  | nil => rfl
  | cons t rest ih =>
      simp only [List.map_cons, toolsNamed, List.filter]
      rw [hg t]
      by_cases h : t.name == n
      · simp only [h]
        exact congrArg _ ih
      · simp only [h]
        exact ih

theorem countName_concat (n : String) (evs : List (String × Nat))
    (e : String × Nat) :
    countName n (evs ++ [e]) =
      countName n evs + if e.1 == n then 1 else 0 := by
  simp only [countName, List.filter_append]
  by_cases h : e.1 == n <;> simp [List.filter, h]

theorem firstUse_concat_of_some (n : String) (evs : List (String × Nat))
    (e : String × Nat) (x : Nat) (h : firstUse n evs = some x) :
    firstUse n (evs ++ [e]) = some x := by
  induction evs with
  | nil => simp [firstUse] at h
  | cons a rest ih =>
      simp only [firstUse] at h ⊢
      by_cases ha : a.1 == n
      · simpa [ha] using h
      · rw [if_neg (by simpa using ha)] at h ⊢
        exact ih h

theorem firstUse_concat_of_none (n : String) (evs : List (String × Nat))
    (e : String × Nat) (h : firstUse n evs = none) :
    firstUse n (evs ++ [e]) = if e.1 == n then some e.2 else none := by
  induction evs with
  | nil => rfl
  | cons a rest ih =>
      simp only [firstUse] at h ⊢
      by_cases ha : a.1 == n
      · simp [ha] at h
      · rw [if_neg (by simpa using ha)] at h ⊢
        exact ih h

theorem lastUse_concat (n : String) (evs : List (String × Nat))
    (e : String × Nat) :
    lastUse n (evs ++ [e]) =
      if e.1 == n then some e.2 else lastUse n evs := by
  simp [lastUse, firstUse]

theorem firstUse_eq_none_iff (n : String) (evs : List (String × Nat)) :
    firstUse n evs = none ↔ countName n evs = 0 := by
  induction evs with
  | nil => simp [firstUse, countName]
  | cons a rest ih =>
      simp only [firstUse, countName, List.filter]
      by_cases ha : a.1 == n
      · simp [ha]
      · simpa [ha, countName] using ih

theorem processToolEvents_concat (evs : List (String × Nat))
    (e : String × Nat) :
    processToolEvents (evs ++ [e]) =
      upsertTool (processToolEvents evs) e.1 e.2 := by
  simp [processToolEvents, List.foldl_append]

theorem processToolEvents_spec (evs : List (String × Nat)) : ∀ n : String,
    toolsNamed n (processToolEvents evs) =
      if countName n evs = 0 then []
      else [{ name := n, description := ""
              created_at := (firstUse n evs).getD 0
              last_used_at := (lastUse n evs).getD 0
              usage_count := countName n evs }] := by
  induction evs using List.reverseRecOn with
  | nil => intro n; simp [processToolEvents, toolsNamed, countName]
  | append_singleton evs e ih =>
      intro n
      rw [processToolEvents_concat]
      by_cases hc0 : countName e.1 evs = 0
      · have hnil : toolsNamed e.1 (processToolEvents evs) = [] := by
          rw [ih e.1, if_pos hc0]
        have hany : (processToolEvents evs).any (fun t => t.name == e.1) = false := by
          cases hA : (processToolEvents evs).any (fun t => t.name == e.1) with
          | false => rfl
          | true => exact absurd hnil ((any_name_iff _ e.1).mp hA)
        rw [upsertTool, hany]
        simp only [Bool.false_eq_true, if_false]
        rw [toolsNamed_append]
        by_cases hn : e.1 = n
        · subst hn
          have hfu : firstUse e.1 evs = none := (firstUse_eq_none_iff _ _).mpr hc0
          rw [ih e.1, if_pos hc0, countName_concat, firstUse_concat_of_none _ _ _ hfu,
            lastUse_concat]
          simp [hc0]
        · have hne : (e.1 == n) = false := by simpa using hn
          rw [ih n, countName_concat, hne]
          have hfu : firstUse n (evs ++ [e]) = firstUse n evs := by
            cases hx : firstUse n evs with
            | none => rw [firstUse_concat_of_none _ _ _ hx, hne]; simp
            | some x => rw [firstUse_concat_of_some _ _ _ x hx]
          rw [hfu, lastUse_concat, hne]
          simp
      · have hone := ih e.1
        rw [if_neg hc0] at hone
        have hany : (processToolEvents evs).any (fun t => t.name == e.1) = true :=
          (any_name_iff _ e.1).mpr (by rw [hone]; simp)
        rw [upsertTool, hany]
        simp only [if_true]
        have hpres : ∀ t : Tool,
            ((fun t => if t.name == e.1 then bumpTool e.2 t else t) t).name = t.name := by
          intro t
          by_cases h : t.name == e.1 <;> simp [h, bumpTool]
        rw [toolsNamed_map_pres _ hpres]
        by_cases hn : e.1 = n
        · subst hn
          obtain ⟨x, hx⟩ : ∃ x, firstUse e.1 evs = some x := by
            cases hf : firstUse e.1 evs with
            | none => exact absurd ((firstUse_eq_none_iff _ _).mp hf) hc0
            | some x => exact ⟨x, rfl⟩
          rw [hone, countName_concat, firstUse_concat_of_some _ _ _ x hx, hx,
            lastUse_concat]
          simp [bumpTool, hc0]
        · have hne : (e.1 == n) = false := by simpa using hn
          have hmapid : (toolsNamed n (processToolEvents evs)).map
              (fun t => if t.name == e.1 then bumpTool e.2 t else t) =
              toolsNamed n (processToolEvents evs) := by
            have : ∀ t ∈ toolsNamed n (processToolEvents evs),
                (if t.name == e.1 then bumpTool e.2 t else t) = t := by
              intro t ht
              have hname : t.name == n :=
                (List.mem_filter.mp ht).2
              have : (t.name == e.1) = false := by
                have h1 : t.name = n := by simpa using hname
                simp [h1]
                intro h2
                exact hn h2.symm
              rw [this]
              simp
            rw [List.map_congr_left this]
            simp
          rw [hmapid, ih n, countName_concat, hne]
          have hfu : firstUse n (evs ++ [e]) = firstUse n evs := by
            cases hx : firstUse n evs with
            | none => rw [firstUse_concat_of_none _ _ _ hx, hne]; simp
            | some x => rw [firstUse_concat_of_some _ _ _ x hx]
          rw [hfu, lastUse_concat, hne]
          simp

end Repo

/-- Claim C2: after any sequence of ToolCall references, a name referenced
N > 0 times has exactly one Tool node, whose usage_count is N, whose
created_at is the time of the first reference and whose last_used_at is
the time of the last; moreover a single upsert of an absent name creates
the Tool with usage_count 1, and a single upsert of a present name keeps
the registry size and bumps the existing node in place. -/
theorem c2_tool_upsert_idempotence (evs : List (String × Nat)) (n : String)
    (hN : 0 < Repo.countName n evs) :
    (Repo.toolsNamed n (Repo.processToolEvents evs)).length = 1 ∧
    (∀ t ∈ Repo.toolsNamed n (Repo.processToolEvents evs),
      t.usage_count = Repo.countName n evs ∧
      t.created_at = (Repo.firstUse n evs).getD 0 ∧
      t.last_used_at = (Repo.lastUse n evs).getD 0) ∧
    (∀ (reg : List Repo.Tool) (now : Nat),
      (reg.any fun t => t.name == n) = false →
      Repo.toolsNamed n (Repo.upsertTool reg n now) =
        [{ name := n, description := "", created_at := now
           last_used_at := now, usage_count := 1 }]) ∧
    (∀ (reg : List Repo.Tool) (now : Nat),
      (reg.any fun t => t.name == n) = true →
      (Repo.upsertTool reg n now).length = reg.length ∧
      Repo.toolsNamed n (Repo.upsertTool reg n now) =
        (Repo.toolsNamed n reg).map (Repo.bumpTool now)) := by
  have hch := Repo.processToolEvents_spec evs n
  rw [if_neg (Nat.pos_iff_ne_zero.mp hN)] at hch
  refine ⟨by rw [hch]; rfl, ?_, ?_, ?_⟩
  · intro t ht
    rw [hch] at ht
    have : t = { name := n, description := ""
                 created_at := (Repo.firstUse n evs).getD 0
                 last_used_at := (Repo.lastUse n evs).getD 0
                 usage_count := Repo.countName n evs } := by simpa using ht
    subst this
    exact ⟨rfl, rfl, rfl⟩
  · intro reg now hany
    have hnil : Repo.toolsNamed n reg = [] := by
      cases h : Repo.toolsNamed n reg with
      | nil => rfl
      | cons a l =>
          exact absurd hany (by
            rw [(Repo.any_name_iff reg n).mpr (by rw [h]; simp)]
            simp)
    rw [Repo.upsertTool, hany]
    simp only [Bool.false_eq_true, if_false]
    rw [Repo.toolsNamed_append, hnil]
    simp
  · intro reg now hany
    rw [Repo.upsertTool, hany]
    simp only [if_true]
    refine ⟨List.length_map .., ?_⟩
    have hpres : ∀ t : Repo.Tool,
        ((fun t => if t.name == n then Repo.bumpTool now t else t) t).name =
          t.name := by
      intro t
      by_cases h : t.name == n <;> simp [h, Repo.bumpTool]
    rw [Repo.toolsNamed_map_pres _ hpres]
    apply List.map_congr_left
    intro t ht
    have hname : (t.name == n) = true := (List.mem_filter.mp ht).2
    rw [hname]
    simp

/-- Witness for C2: two references to the search tool around one to the
geo tool leave exactly one search Tool node with usage_count 2, created at
the first use and last used at the last. -/
theorem c2_tool_upsert_idempotence_witness :
    (Repo.toolsNamed "search"
        (Repo.processToolEvents
          [("search", 5), ("geo", 6), ("search", 9)])).length = 1 ∧
    (∀ t ∈ Repo.toolsNamed "search"
        (Repo.processToolEvents
          [("search", 5), ("geo", 6), ("search", 9)]),
      t.usage_count =
          Repo.countName "search" [("search", 5), ("geo", 6), ("search", 9)] ∧
      t.created_at =
          (Repo.firstUse "search" [("search", 5), ("geo", 6), ("search", 9)]).getD 0 ∧
      t.last_used_at =
          (Repo.lastUse "search" [("search", 5), ("geo", 6), ("search", 9)]).getD 0) ∧
    (∀ (reg : List Repo.Tool) (now : Nat),
      (reg.any fun t => t.name == "search") = false →
      Repo.toolsNamed "search" (Repo.upsertTool reg "search" now) =
        [{ name := "search", description := "", created_at := now
           last_used_at := now, usage_count := 1 }]) ∧
    (∀ (reg : List Repo.Tool) (now : Nat),
      (reg.any fun t => t.name == "search") = true →
      (Repo.upsertTool reg "search" now).length = reg.length ∧
      Repo.toolsNamed "search" (Repo.upsertTool reg "search" now) =
        (Repo.toolsNamed "search" reg).map (Repo.bumpTool now)) :=
  c2_tool_upsert_idempotence [("search", 5), ("geo", 6), ("search", 9)]
    "search" (by decide)

namespace Orchestrator

/-- A tool result: its primary collection (abstracted to a list of item
identifiers).  A result is insufficient when this collection is empty
(spec section 4.3). -/
structure ToolResult where
  items : List Nat
deriving Repr, DecidableEq

/-- One recorded ToolCall entry of the procedural record: the parameter
used for the attempt and the result obtained. -/
structure CallRecord where
  param : Nat
  result : ToolResult
deriving Repr, DecidableEq

/-- The maximum number of attempts of the retry policy (spec section 4.3:
up to 3 attempts). -/
def maxAttempts : Nat := 3

/-- The fixed escalation factor applied to the limit/radius/range
parameter before each retry. -/
def escalationFactor : Nat := 2

/-- Escalate the tool parameter by the fixed factor. -/
def escalate (p : Nat) : Nat := p * escalationFactor

/-- Modelled from the spec: the retry loop of the ToolExecution state
(section 4.3, backend/app/agent.py not present under src).  While attempts
remain: invoke the tool, record the attempt as a ToolCall entry; if the
primary collection is empty and attempts remain, escalate the parameter
and retry, else stop.  Retries are recorded, never discarded. -/
def runWithRetry (call : Nat → ToolResult) : Nat → Nat → List CallRecord
  | _, 0 => []
  | p, n + 1 =>
      let r := call p
      if r.items.isEmpty then
        { param := p, result := r } :: runWithRetry call (escalate p) n
      else
        [{ param := p, result := r }]

/-- Execute one requested tool call under the retry policy. -/
def executeToolCall (call : Nat → ToolResult) (defaultParam : Nat) :
    List CallRecord :=
  runWithRetry call defaultParam maxAttempts

end Orchestrator

/-- Claim C3: for a tool stub empty on the default parameter and on the
once-escalated parameter but non-empty on the twice-escalated parameter,
the Orchestrator records exactly three ToolCall entries — one per
attempt, with the parameter escalated by the fixed factor before each
retry — the three entries are pairwise distinct, and the loop terminates
on the third attempt with its non-empty result. -/
theorem c3_retry_escalation (call : Nat → Orchestrator.ToolResult) (d : Nat)
    (hd : 0 < d)
    (h1 : (call d).items = [])
    (h2 : (call (Orchestrator.escalate d)).items = [])
    (h3 : (call (Orchestrator.escalate (Orchestrator.escalate d))).items ≠ []) :
    Orchestrator.executeToolCall call d =
      [{ param := d, result := call d },
       { param := Orchestrator.escalate d
         result := call (Orchestrator.escalate d) },
       { param := Orchestrator.escalate (Orchestrator.escalate d)
         result := call (Orchestrator.escalate (Orchestrator.escalate d)) }] ∧
    (Orchestrator.executeToolCall call d).length = 3 ∧
    (Orchestrator.executeToolCall call d).map Orchestrator.CallRecord.param =
      [d, d * Orchestrator.escalationFactor,
       d * Orchestrator.escalationFactor * Orchestrator.escalationFactor] ∧
    (Orchestrator.executeToolCall call d).Nodup ∧
    ∀ rec ∈ (Orchestrator.executeToolCall call d).drop 2,
      rec.result.items ≠ [] := by
  have hrun : Orchestrator.executeToolCall call d =
      [{ param := d, result := call d },
       { param := Orchestrator.escalate d
         result := call (Orchestrator.escalate d) },
       { param := Orchestrator.escalate (Orchestrator.escalate d)
         result := call (Orchestrator.escalate (Orchestrator.escalate d)) }] := by
    rw [Orchestrator.executeToolCall]
    show Orchestrator.runWithRetry call d 3 = _
    rw [Orchestrator.runWithRetry]
    simp only [h1, List.isEmpty_nil, if_true]
    rw [Orchestrator.runWithRetry]
    simp only [h2, List.isEmpty_nil, if_true]
    rw [Orchestrator.runWithRetry]
    rw [if_neg (by simpa [List.isEmpty_iff] using h3)]
  refine ⟨hrun, by rw [hrun]; rfl, by rw [hrun]; rfl, ?_, ?_⟩
  · have hmap : (Orchestrator.executeToolCall call d).map
        Orchestrator.CallRecord.param = [d, d * 2, d * 2 * 2] := by
      rw [hrun]; rfl
    have hne1 : d ≠ d * 2 := by omega
    have hne2 : d ≠ d * 2 * 2 := by omega
    have hne3 : d * 2 ≠ d * 2 * 2 := by omega
    have hnd : ([d, d * 2, d * 2 * 2] : List Nat).Nodup := by
      simp [List.nodup_cons, hne1, hne2, hne3]
    exact List.Nodup.of_map _ (hmap ▸ hnd)
  · rw [hrun]
    intro rec hrec
    simp only [List.drop] at hrec
    have : rec = { param := Orchestrator.escalate (Orchestrator.escalate d)
                   result := call (Orchestrator.escalate (Orchestrator.escalate d)) } := by
      simpa using hrec
    rw [this]
    exact h3

/-- Witness for C3: a concrete stub that is empty at limits 10 and 20 and
non-empty at limit 40 is called three times, with escalating limits, and
stops on the third attempt. -/
theorem c3_retry_escalation_witness :
    Orchestrator.executeToolCall
        (fun p => if p < 40 then { items := [] } else { items := [p] }) 10 =
      [{ param := 10, result := { items := [] } },
       { param := 20, result := { items := [] } },
       { param := 40, result := { items := [40] } }] ∧
    (Orchestrator.executeToolCall
        (fun p => if p < 40 then { items := [] } else { items := [p] }) 10).length = 3 := by
  have h := c3_retry_escalation
    (fun p => if p < 40 then { items := [] } else { items := [p] }) 10
    (by decide) (by decide) (by decide) (by decide)
  exact ⟨by rw [h.1]; rfl, h.2.1⟩

namespace Prefs

/-- A UserPreference node (spec section 3 and the README schema).
Confidence is a rational in place of the stored float. -/
structure UserPreference where
  id : Nat
  category : String
  preference : String
  context : String
  confidence : ℚ
  created_at : Nat
  last_updated : Nat
deriving Repr, DecidableEq

/-- A preference candidate produced by the extraction step
(spec section 4.2). -/
structure Candidate where
  category : String
  preference : String
  context : String
  confidence : ℚ
deriving Repr, DecidableEq

/-- The in-place update of a recognized duplicate (spec section 4.2):
text replaced by the candidate (most recent wins), confidence is the
maximum of the two, last_updated refreshed. -/
def mergePref (p : UserPreference) (c : Candidate) (now : Nat) :
    UserPreference :=
  { p with preference := c.preference
           confidence := max p.confidence c.confidence
           last_updated := now }

/-- The duplicate check applied to an existing preference: same category
and judged a semantic duplicate by the (pluggable, deterministic)
similarity policy. -/
def dupTest (isDup : UserPreference → Candidate → Bool) (c : Candidate)
    (p : UserPreference) : Bool :=
  p.category == c.category && isDup p c

/-- Update the first list element satisfying the test, in place. -/
def updateFirst (f : UserPreference → Bool)
    (g : UserPreference → UserPreference) :
    List UserPreference → List UserPreference
  | [] => []
  | p :: rest => if f p then g p :: rest else p :: updateFirst f g rest

/-- Modelled from the spec: the merge policy of the Preference Extraction
and Merge Engine (section 4.2, backend/app/preferences_client.py and
memory_provider.py not present under src).  If an existing preference of
the same category is judged a semantic duplicate, update it in place;
otherwise insert a new UserPreference with a fresh id. -/
def mergeCandidate (isDup : UserPreference → Candidate → Bool)
    (store : List UserPreference) (c : Candidate) (now : Nat)
    (freshId : Nat) : List UserPreference :=
  if store.any (dupTest isDup c) then
    updateFirst (dupTest isDup c) (fun p => mergePref p c now) store
  else
    store ++ [{ id := freshId, category := c.category
                preference := c.preference, context := c.context
                confidence := c.confidence, created_at := now
                last_updated := now }]

theorem updateFirst_length (f : UserPreference → Bool)
    (g : UserPreference → UserPreference) (l : List UserPreference) :
    (updateFirst f g l).length = l.length := by
  induction l with
  | nil => rfl
  | cons p rest ih =>
      by_cases h : f p <;> simp [updateFirst, h, ih]

theorem updateFirst_spec (f : UserPreference → Bool)
    (g : UserPreference → UserPreference) :
    ∀ l : List UserPreference, l.any f = true →
    ∃ i, ∃ h : i < l.length, f (l.get ⟨i, h⟩) = true ∧
      updateFirst f g l = l.set i (g (l.get ⟨i, h⟩)) := by
  intro l
  induction l with
  | nil => intro h; simp at h
  | cons p rest ih =>
      intro hany
      by_cases hp : f p
      · exact ⟨0, by simp, hp, by simp [updateFirst, hp]⟩
      · have hrest : rest.any f = true := by
          rcases List.any_eq_true.mp hany with ⟨x, hx, hfx⟩
          rcases List.mem_cons.mp hx with hx | hx
          · exact absurd (hx ▸ hfx) (by simpa using hp)
          · exact List.any_eq_true.mpr ⟨x, hx, hfx⟩
        rcases ih hrest with ⟨i, h, hfi, heq⟩
        exact ⟨i + 1, by simpa using h, hfi,
          by simp [updateFirst, hp, heq]⟩

end Prefs

/-- Claim C4: when a candidate is judged a semantic duplicate of an
existing UserPreference in its category, the merge updates that node in
place — text replaced by the candidate, confidence the maximum of the
two, last_updated refreshed — and never creates a second node; and for a
duplicate policy that recognizes identical text and category, a second
submission of the same candidate never adds a node either, whatever store
it starts from. -/
theorem c4_preference_merge_dedup (isDup : Prefs.UserPreference → Prefs.Candidate → Bool)
    (store : List Prefs.UserPreference) (c : Prefs.Candidate)
    (now now2 fid fid2 : Nat)
    (hdup : store.any (Prefs.dupTest isDup c) = true)
    (hrec : ∀ p : Prefs.UserPreference, p.category = c.category →
      p.preference = c.preference → isDup p c = true) :
    (Prefs.mergeCandidate isDup store c now fid).length = store.length ∧
    (∃ i, ∃ h : i < store.length,
      Prefs.dupTest isDup c (store.get ⟨i, h⟩) = true ∧
      Prefs.mergeCandidate isDup store c now fid =
        store.set i
          { store.get ⟨i, h⟩ with
            preference := c.preference
            confidence := max (store.get ⟨i, h⟩).confidence c.confidence
            last_updated := now }) ∧
    ∀ store0 : List Prefs.UserPreference,
      (Prefs.mergeCandidate isDup
          (Prefs.mergeCandidate isDup store0 c now fid) c now2 fid2).length =
        (Prefs.mergeCandidate isDup store0 c now fid).length := by
  have hsecond : ∀ store0 : List Prefs.UserPreference,
      (Prefs.mergeCandidate isDup
          (Prefs.mergeCandidate isDup store0 c now fid) c now2 fid2).length =
        (Prefs.mergeCandidate isDup store0 c now fid).length := by
    intro store0
    have hmem : ∃ q ∈ Prefs.mergeCandidate isDup store0 c now fid,
        q.category = c.category ∧ q.preference = c.preference := by
      rw [Prefs.mergeCandidate]
      by_cases h0 : store0.any (Prefs.dupTest isDup c) = true
      · rw [if_pos h0]
        rcases Prefs.updateFirst_spec (Prefs.dupTest isDup c)
          (fun p => Prefs.mergePref p c now) store0 h0 with ⟨i, h, hfi, heq⟩
        refine ⟨Prefs.mergePref (store0.get ⟨i, h⟩) c now, ?_, ?_, rfl⟩
        · rw [heq]
          have hlen : i < (store0.set i
              (Prefs.mergePref (store0.get ⟨i, h⟩) c now)).length := by
            simpa using h
          have hget : (store0.set i
              (Prefs.mergePref (store0.get ⟨i, h⟩) c now)).get ⟨i, hlen⟩ =
                Prefs.mergePref (store0.get ⟨i, h⟩) c now := by
            simp
          have hm := List.get_mem (store0.set i
              (Prefs.mergePref (store0.get ⟨i, h⟩) c now)) i hlen
          rw [hget] at hm
          exact hm
        · have h2 := hfi
          simp only [Prefs.dupTest, Bool.and_eq_true] at h2
          simpa [Prefs.mergePref] using h2.1
      · rw [if_neg h0]
        exact ⟨_, List.mem_append_right _ (List.mem_singleton_self _), rfl, rfl⟩
    rcases hmem with ⟨q, hq, hqcat, hqpref⟩
    have hany : (Prefs.mergeCandidate isDup store0 c now fid).any
        (Prefs.dupTest isDup c) = true := by
      refine List.any_eq_true.mpr ⟨q, hq, ?_⟩
      rw [Prefs.dupTest, Bool.and_eq_true]
      exact ⟨by simp [hqcat], hrec q hqcat hqpref⟩
    rw [Prefs.mergeCandidate, if_pos hany, Prefs.updateFirst_length]
  refine ⟨?_, ?_, hsecond⟩
  · rw [Prefs.mergeCandidate, if_pos hdup, Prefs.updateFirst_length]
  · rcases Prefs.updateFirst_spec (Prefs.dupTest isDup c)
      (fun p => Prefs.mergePref p c now) store hdup with ⟨i, h, hfi, heq⟩
    exact ⟨i, h, hfi, by rw [Prefs.mergeCandidate, if_pos hdup]; exact heq⟩

/-- Witness for C4: a store holding one climate preference of the same
category, a candidate with the same text, and a similarity policy that
compares the preference text: the merge keeps a single node. -/
theorem c4_preference_merge_dedup_witness :
    (Prefs.mergeCandidate (fun p c => p.preference == c.preference)
        [{ id := 1, category := "topics_of_interest", preference := "climate"
           context := "ctx", confidence := 1/2, created_at := 0
           last_updated := 0 }]
        { category := "topics_of_interest", preference := "climate"
          context := "ctx2", confidence := 3/4 } 5 100).length =
      ([{ id := 1, category := "topics_of_interest", preference := "climate"
          context := "ctx", confidence := 1/2, created_at := 0
          last_updated := 0 }] : List Prefs.UserPreference).length :=
  (c4_preference_merge_dedup (fun p c => p.preference == c.preference)
    [{ id := 1, category := "topics_of_interest", preference := "climate"
       context := "ctx", confidence := 1/2, created_at := 0
       last_updated := 0 }]
    { category := "topics_of_interest", preference := "climate"
      context := "ctx2", confidence := 3/4 } 5 9 100 101
    (by decide)
    (fun p _ hpref => by simp [hpref])).1

namespace Repo

/-- A Thread node, reduced to its identity. -/
structure ThreadNode where
  id : Nat
deriving Repr, DecidableEq

/-- A Message node with its denormalized thread back-reference. -/
structure MessageNode where
  id : Nat
  thread_id : Nat
deriving Repr, DecidableEq

/-- A ReasoningStep node with its message and thread back-references. -/
structure StepNode where
  id : Nat
  message_id : Nat
  thread_id : Nat
deriving Repr, DecidableEq

/-- A ToolCall node, linked to its owning ReasoningStep by step_id. -/
structure ToolCallNode where
  id : Nat
  step_id : Nat
deriving Repr, DecidableEq

/-- A PreferenceCategory node. -/
structure CategoryNode where
  name : String
  description : String
deriving Repr, DecidableEq

/-- The memory store as node collections per label (spec section 3). -/
structure MemoryStore where
  threads : List ThreadNode
  messages : List MessageNode
  steps : List StepNode
  toolCalls : List ToolCallNode
  tools : List Tool
  categories : List CategoryNode
deriving Repr, DecidableEq

/-- The ids of the ReasoningSteps belonging to a thread. -/
def stepIdsOfThread (s : MemoryStore) (t : Nat) : List Nat :=
  (s.steps.filter fun st => st.thread_id == t).map fun st => st.id

/-- Modelled from the spec: `delete_thread` of the Memory Repository
(section 4.1, backend/app/sessions_client.py not present under src).
Deleting a thread cascades to its Messages, their ReasoningSteps and
those steps' ToolCalls; the shared Tool and PreferenceCategory
collections are not touched. -/
def deleteThread (s : MemoryStore) (t : Nat) : MemoryStore :=
  let deadSteps := stepIdsOfThread s t
  { threads := s.threads.filter fun th => !(th.id == t)
    messages := s.messages.filter fun m => !(m.thread_id == t)
    steps := s.steps.filter fun st => !(st.thread_id == t)
    toolCalls := s.toolCalls.filter fun c => !(deadSteps.contains c.step_id)
    tools := s.tools
    categories := s.categories }

end Repo

/-- Claim C7: deleting a Thread removes exactly that thread's Messages,
ReasoningSteps and the ToolCalls of those steps — everything else of
those labels survives — while the shared Tool and PreferenceCategory
collections are left unchanged. -/
theorem c7_deletion_cascade (s : Repo.MemoryStore) (t : Nat) :
    (Repo.deleteThread s t).tools = s.tools ∧
    (Repo.deleteThread s t).categories = s.categories ∧
    (∀ th ∈ (Repo.deleteThread s t).threads, th.id ≠ t) ∧
    (∀ m ∈ (Repo.deleteThread s t).messages, m.thread_id ≠ t) ∧
    (∀ m ∈ s.messages, m.thread_id ≠ t → m ∈ (Repo.deleteThread s t).messages) ∧
    (∀ st ∈ (Repo.deleteThread s t).steps, st.thread_id ≠ t) ∧
    (∀ st ∈ s.steps, st.thread_id ≠ t → st ∈ (Repo.deleteThread s t).steps) ∧
    (∀ c ∈ (Repo.deleteThread s t).toolCalls,
      c.step_id ∉ Repo.stepIdsOfThread s t) ∧
    (∀ c ∈ s.toolCalls, c.step_id ∉ Repo.stepIdsOfThread s t →
      c ∈ (Repo.deleteThread s t).toolCalls) := by
  refine ⟨rfl, rfl, ?_, ?_, ?_, ?_, ?_, ?_, ?_⟩
  · intro th hth
    have := List.mem_filter.mp hth
    simpa using this.2
  · intro m hm
    have := List.mem_filter.mp hm
    simpa using this.2
  · intro m hm hne
    exact List.mem_filter.mpr ⟨hm, by simpa using hne⟩
  · intro st hst
    have := List.mem_filter.mp hst
    simpa using this.2
  · intro st hst hne
    exact List.mem_filter.mpr ⟨hst, by simpa using hne⟩
  · intro c hc
    have := List.mem_filter.mp hc
    simpa [List.elem_iff] using this.2
  · intro c hc hne
    exact List.mem_filter.mpr ⟨hc, by simpa [List.elem_iff] using hne⟩

/-- Witness for C7 at a concrete store: thread 1 with one message, one
step and one tool call, a surviving thread 2 with its own records, one
Tool and one PreferenceCategory. -/
theorem c7_deletion_cascade_witness :
    Repo.deleteThread
        { threads := [{ id := 1 }, { id := 2 }]
          messages := [{ id := 10, thread_id := 1 }, { id := 11, thread_id := 2 }]
          steps := [{ id := 20, message_id := 10, thread_id := 1 },
                    { id := 21, message_id := 11, thread_id := 2 }]
          toolCalls := [{ id := 30, step_id := 20 }, { id := 31, step_id := 21 }]
          tools := [{ name := "search", description := "", created_at := 0
                      last_used_at := 5, usage_count := 2 }]
          categories := [{ name := "topics_of_interest", description := "" }] } 1 =
      { threads := [{ id := 2 }]
        messages := [{ id := 11, thread_id := 2 }]
        steps := [{ id := 21, message_id := 11, thread_id := 2 }]
        toolCalls := [{ id := 31, step_id := 21 }]
        tools := [{ name := "search", description := "", created_at := 0
                    last_used_at := 5, usage_count := 2 }]
        categories := [{ name := "topics_of_interest", description := "" }] } ∧
    (Repo.deleteThread
        { threads := [{ id := 1 }, { id := 2 }]
          messages := [{ id := 10, thread_id := 1 }, { id := 11, thread_id := 2 }]
          steps := [{ id := 20, message_id := 10, thread_id := 1 },
                    { id := 21, message_id := 11, thread_id := 2 }]
          toolCalls := [{ id := 30, step_id := 20 }, { id := 31, step_id := 21 }]
          tools := [{ name := "search", description := "", created_at := 0
                      last_used_at := 5, usage_count := 2 }]
          categories := [{ name := "topics_of_interest", description := "" }] } 1).tools =
      [{ name := "search", description := "", created_at := 0
         last_used_at := 5, usage_count := 2 }] := by
  refine ⟨by decide, ?_⟩
  exact (c7_deletion_cascade
    { threads := [{ id := 1 }, { id := 2 }]
      messages := [{ id := 10, thread_id := 1 }, { id := 11, thread_id := 2 }]
      steps := [{ id := 20, message_id := 10, thread_id := 1 },
                { id := 21, message_id := 11, thread_id := 2 }]
      toolCalls := [{ id := 30, step_id := 20 }, { id := 31, step_id := 21 }]
      tools := [{ name := "search", description := "", created_at := 0
                  last_used_at := 5, usage_count := 2 }]
      categories := [{ name := "topics_of_interest", description := "" }] } 1).1
